import Mathlib

/-!
Shallow embedding of the NYC taxi dashboard pipeline
(`app.py` and `pages/1_Dashboard.py`).

Timestamps are modelled as `Int` seconds since 2024-01-01 00:00:00,
which was a Monday; the target month window `[2024-01-01, 2024-02-01)`
is therefore `[0, 31*86400)`.  Monetary and distance columns are `ℚ`.
Nullable (critical) columns of the raw frame are `Option`-typed; the
pandas `NaT >= "2024-01-01"` comparison is `False`, so a null pickup is
dropped by the month filter, and the remaining nulls are dropped by
`dropna` — both are captured by the `Option` pattern match below.
-/

namespace Taxi

/-- Length in seconds of the target month January 2024 (31 days). -/
def monthSeconds : Int := 31 * 86400

/-- Hour-of-day of a timestamp (pandas `.dt.hour`). -/
def pickupHourOf (t : Int) : Int := (t.fdiv 3600) % 24

/-- Calendar date of a timestamp as a day index (pandas `.dt.date`),
day 0 being 2024-01-01. -/
def pickupDateOf (t : Int) : Int := t.fdiv 86400

/-- The fixed weekday order `DAY_ORDER` of `pages/1_Dashboard.py`. -/
def DAY_ORDER : List String :=
  ["Monday", "Tuesday", "Wednesday", "Thursday", "Friday", "Saturday", "Sunday"]

/-- Weekday name of a timestamp (pandas `.dt.day_name()`); 2024-01-01
was a Monday, so the weekday index is the day index modulo 7. -/
def dayNameOf (t : Int) : String :=
  match ((t.fdiv 86400).emod 7).toNat with
  | 0 => "Monday"
  | 1 => "Tuesday"
  | 2 => "Wednesday"
  | 3 => "Thursday"
  | 4 => "Friday"
  | 5 => "Saturday"
  | _ => "Sunday"

/-- Classification of an IEEE float value as produced by the pandas
expression `trip_distance / hours`: either a finite rational, an
infinity, or NaN. -/
inductive FVal where
  | fin (q : ℚ)
  | inf
  | ninf
  | nan
deriving DecidableEq

/-- Float division `a / b` of two finite values: finite quotient when
`b ≠ 0`, signed infinity when `b = 0` and `a ≠ 0`, NaN for `0 / 0`. -/
def fdivF (a b : ℚ) : FVal :=
  if b ≠ 0 then .fin (a / b)
  else if 0 < a then .inf
  else if a < 0 then .ninf
  else .nan

/-- The `.replace([inf, -inf], 0)` step of the speed computation. -/
def replaceInfWithZero : FVal → FVal
  | .inf => .fin 0
  | .ninf => .fin 0
  | v => v

/-- The `.fillna(0)` step of the speed computation. -/
def fillnaWithZero : FVal → FVal
  | .nan => .fin 0
  | v => v

/-- One raw trip record, with the critical columns `Option`-typed
(pandas nulls). -/
structure RawTrip where
  tpep_pickup_datetime : Option Int
  tpep_dropoff_datetime : Option Int
  PULocationID : Option Int
  DOLocationID : Option Int
  fare_amount : Option ℚ
  trip_distance : ℚ
  passenger_count : ℚ
  payment_type : Int
  total_amount : ℚ
deriving DecidableEq

/-- A cleaned trip as built by the cache-building branch of
`load_data` in `pages/1_Dashboard.py`: surviving raw columns plus the
four derived columns computed there (`trip_duration_minutes`,
`trip_speed_mph`, `pickup_hour`, `pickup_day_of_week`). -/
structure CTrip where
  tpep_pickup_datetime : Int
  tpep_dropoff_datetime : Int
  PULocationID : Int
  DOLocationID : Int
  fare_amount : ℚ
  trip_distance : ℚ
  passenger_count : ℚ
  payment_type : Int
  total_amount : ℚ
  trip_duration_minutes : ℚ
  trip_speed_mph : FVal
  pickup_hour : Int
  pickup_day_of_week : String
deriving DecidableEq

/-- A cleaned trip as built by the cache-building branch of
`load_overview_data` in `app.py`: same as `CTrip` plus `pickup_date`,
which that branch computes before saving. -/
structure OTrip where
  tpep_pickup_datetime : Int
  tpep_dropoff_datetime : Int
  PULocationID : Int
  DOLocationID : Int
  fare_amount : ℚ
  trip_distance : ℚ
  passenger_count : ℚ
  payment_type : Int
  total_amount : ℚ
  trip_duration_minutes : ℚ
  trip_speed_mph : FVal
  pickup_hour : Int
  pickup_day_of_week : String
  pickup_date : Int
deriving DecidableEq

/-- Row-level cleaning of `load_data` (`pages/1_Dashboard.py`,
cache-building branch).  The guard lists, in source order: the
Jan-2024 month window on the pickup, `trip_distance > 0`,
`0 ≤ fare_amount ≤ 500`, `dropoff ≥ pickup`, `passenger_count > 0`,
`trip_distance < 50`; the `Option` match is the `dropna` on the
critical columns (a null pickup already fails the month window). -/
def cleanRowDashboard (r : RawTrip) : Option CTrip :=
  match r.tpep_pickup_datetime, r.tpep_dropoff_datetime,
        r.PULocationID, r.DOLocationID, r.fare_amount with
  | some p, some d, some pu, some dl, some f =>
    if 0 ≤ p ∧ p < monthSeconds ∧ 0 < r.trip_distance ∧
        0 ≤ f ∧ f ≤ 500 ∧ p ≤ d ∧ 0 < r.passenger_count ∧
        r.trip_distance < 50 then
      some { tpep_pickup_datetime := p
             tpep_dropoff_datetime := d
             PULocationID := pu
             DOLocationID := dl
             fare_amount := f
             trip_distance := r.trip_distance
             passenger_count := r.passenger_count
             payment_type := r.payment_type
             total_amount := r.total_amount
             trip_duration_minutes := ((d - p : Int) : ℚ) / 60
             trip_speed_mph :=
               fillnaWithZero (replaceInfWithZero
                 (fdivF r.trip_distance ((((d - p : Int) : ℚ) / 60) / 60)))
             pickup_hour := pickupHourOf p
             pickup_day_of_week := dayNameOf p }
    else none
  | _, _, _, _, _ => none

/-- The Cleaner of `pages/1_Dashboard.py` over a raw frame. -/
def cleanDashboard (raws : List RawTrip) : List CTrip :=
  raws.filterMap cleanRowDashboard

/-- Row-level cleaning of `load_overview_data` (`app.py`,
cache-building branch): the same guards in the same order, and the
same derived columns plus `pickup_date`. -/
def cleanRowOverview (r : RawTrip) : Option OTrip :=
  match r.tpep_pickup_datetime, r.tpep_dropoff_datetime,
        r.PULocationID, r.DOLocationID, r.fare_amount with
  | some p, some d, some pu, some dl, some f =>
    if 0 ≤ p ∧ p < monthSeconds ∧ 0 < r.trip_distance ∧
        0 ≤ f ∧ f ≤ 500 ∧ p ≤ d ∧ 0 < r.passenger_count ∧
        r.trip_distance < 50 then
      some { tpep_pickup_datetime := p
             tpep_dropoff_datetime := d
             PULocationID := pu
             DOLocationID := dl
             fare_amount := f
             trip_distance := r.trip_distance
             passenger_count := r.passenger_count
             payment_type := r.payment_type
             total_amount := r.total_amount
             trip_duration_minutes := ((d - p : Int) : ℚ) / 60
             trip_speed_mph :=
               fillnaWithZero (replaceInfWithZero
                 (fdivF r.trip_distance ((((d - p : Int) : ℚ) / 60) / 60)))
             pickup_hour := pickupHourOf p
             pickup_day_of_week := dayNameOf p
             pickup_date := pickupDateOf p }
    else none
  | _, _, _, _, _ => none

/-- The Cleaner of `app.py` over a raw frame. -/
def cleanOverview (raws : List RawTrip) : List OTrip :=
  raws.filterMap cleanRowOverview

/-- Projection of an overview-cleaned row onto the columns shared with
the dashboard-cleaned row (drops `pickup_date`). -/
def sharedOfOverview (o : OTrip) : CTrip :=
  { tpep_pickup_datetime := o.tpep_pickup_datetime
    tpep_dropoff_datetime := o.tpep_dropoff_datetime
    PULocationID := o.PULocationID
    DOLocationID := o.DOLocationID
    fare_amount := o.fare_amount
    trip_distance := o.trip_distance
    passenger_count := o.passenger_count
    payment_type := o.payment_type
    total_amount := o.total_amount
    trip_duration_minutes := o.trip_duration_minutes
    trip_speed_mph := o.trip_speed_mph
    pickup_hour := o.pickup_hour
    pickup_day_of_week := o.pickup_day_of_week }

/-- One record of the zone lookup CSV (columns kept by `load_data`:
`LocationID`, `Borough`, `Zone`). -/
structure Zone where
  LocationID : Int
  Borough : String
  ZoneName : String
deriving DecidableEq

/-- The `PAYMENT_MAP` of `pages/1_Dashboard.py` followed by
`.fillna("Other")`: codes outside the map get label `"Other"`. -/
def paymentNameOf (code : Int) : String :=
  if code = 0 then "Flex Fare"
  else if code = 1 then "Credit Card"
  else if code = 2 then "Cash"
  else if code = 3 then "No Charge"
  else if code = 4 then "Dispute"
  else if code = 5 then "Unknown"
  else if code = 6 then "Voided Trip"
  else "Other"

/-- A row of the enriched frame returned by `load_data`: the cleaned
columns (`base`) plus `pickup_date`, `payment_name` and the left-joined
zone columns `pickup_borough` / `pickup_zone` (null when the pickup
location id has no match in the lookup). -/
structure ETrip where
  base : CTrip
  pickup_date : Int
  payment_name : String
  pickup_borough : Option String
  pickup_zone : Option String
deriving DecidableEq

/-- Enrichment of one cleaned row: `pickup_date` and `payment_name`
column assignments, then the left `merge` on
`PULocationID = LocationID`.  A pandas left join emits one output row
per matching lookup row, or a single null-extended row when there is
no match. -/
def enrichRow (zones : List Zone) (c : CTrip) : List ETrip :=
  let ms := zones.filter (fun z => decide (z.LocationID = c.PULocationID))
  if ms.isEmpty then
    [{ base := c
       pickup_date := pickupDateOf c.tpep_pickup_datetime
       payment_name := paymentNameOf c.payment_type
       pickup_borough := none
       pickup_zone := none }]
  else
    ms.map (fun z =>
      { base := c
        pickup_date := pickupDateOf c.tpep_pickup_datetime
        payment_name := paymentNameOf c.payment_type
        pickup_borough := some z.Borough
        pickup_zone := some z.ZoneName })

/-- The Enricher of `pages/1_Dashboard.py` over a cleaned frame. -/
def enrichDashboard (zones : List Zone) (rows : List CTrip) : List ETrip :=
  rows.flatMap (enrichRow zones)

/-- The full dashboard load pipeline on a fresh environment (no cache
artifact): clean then enrich. -/
def dashboardView (zones : List Zone) (raws : List RawTrip) : List ETrip :=
  enrichDashboard zones (cleanDashboard raws)

/-- The sidebar filter of `pages/1_Dashboard.py`: conjunction of the
inclusive date range, the inclusive hour range, and membership of the
payment label in the selected set. -/
def applyFilter (df : List ETrip) (start_date end_date hour_min hour_max : Int)
    (payments : List String) : List ETrip :=
  df.filter (fun r =>
    decide (start_date ≤ r.pickup_date) && decide (r.pickup_date ≤ end_date) &&
    decide (hour_min ≤ r.base.pickup_hour) && decide (r.base.pickup_hour ≤ hour_max) &&
    payments.contains r.payment_name)

/-- Minimum of an `Int` column (pandas `.min()`; 0 on an empty frame,
unused there). -/
def colMin : List Int → Int
  | [] => 0
  | x :: xs => xs.foldl min x

/-- Maximum of an `Int` column (pandas `.max()`). -/
def colMax : List Int → Int
  | [] => 0
  | x :: xs => xs.foldl max x

/-- Strict lexicographic comparison of two character lists by code
point — the order Python string comparison (and hence pandas key
sorting) uses. -/
def charListLt : List Char → List Char → Bool
  | [], [] => false
  | [], _ :: _ => true
  | _ :: _, [] => false
  | a :: as, b :: bs =>
    if a.val < b.val then true
    else if b.val < a.val then false
    else charListLt as bs

/-- Non-strict string order derived from `charListLt`. -/
def strLe (a b : String) : Prop :=
  (a == b || charListLt a.data b.data) = true

instance : DecidableRel strLe := fun _ _ => instDecidableEqBool _ _

/-- The sidebar option list `payment_options`: sorted distinct payment
labels of the enriched frame (`payment_name` is never null, so the
`dropna()` of the source is a no-op). -/
def payment_options (df : List ETrip) : List String :=
  List.insertionSort strLe (df.map (fun r => r.payment_name)).dedup

/-- Group key of `agg_top10_zones`; a pandas `groupby` on columns
drops rows whose key contains a null. -/
def groupKeyOf (r : ETrip) : Option (String × String) :=
  match r.pickup_zone, r.pickup_borough with
  | some z, some b => some (z, b)
  | _, _ => none

/-- The `(pickup_zone, pickup_borough)` keys of the rows that take
part in the zone grouping. -/
def keyedZones (df : List ETrip) : List (String × String) :=
  df.filterMap groupKeyOf

/-- Lexicographic order on group keys, the order in which a pandas
`groupby(sort=True)` emits its groups. -/
def pairLe (a b : String × String) : Prop :=
  (charListLt a.1.data b.1.data ||
    (a.1 == b.1 && (a.2 == b.2 || charListLt a.2.data b.2.data))) = true

instance : DecidableRel pairLe := fun _ _ => instDecidableEqBool _ _

/-- Comparison used to model `sort_values("trip_count", ascending=False)`
on the zone counts: non-increasing count.  The kind of sort pandas uses
leaves the relative order of tied counts unspecified; the embedding
fixes one order (a stable sort of the key-sorted groups), and no
theorem below depends on which tied order is produced. -/
def countGe (a b : (String × String) × Nat) : Prop := b.2 ≤ a.2

instance : DecidableRel countGe := fun a b => Nat.decLe b.2 a.2

instance : IsTotal ((String × String) × Nat) countGe :=
  ⟨fun a b => Nat.le_total b.2 a.2⟩

instance : IsTrans ((String × String) × Nat) countGe :=
  ⟨fun _ _ _ hab hbc => le_trans hbc hab⟩

/-- Aggregation `agg_top10_zones` of `pages/1_Dashboard.py`: group by
`(pickup_zone, pickup_borough)` (null keys dropped, groups emitted in
key order), count rows per group, sort by count descending, take the
first 10. -/
def agg_top10_zones (df : List ETrip) : List ((String × String) × Nat) :=
  (List.insertionSort countGe
    ((List.insertionSort pairLe (keyedZones df).dedup).map
      (fun k => (k, (keyedZones df).count k)))).take 10

/-- The distinct pickup hours observed in a frame, ascending — the
group levels a pandas `groupby("pickup_hour")` produces. -/
def observedHours (df : List ETrip) : List Int :=
  List.insertionSort (· ≤ ·) (df.map (fun r => r.base.pickup_hour)).dedup

/-- Mean of a rational column (pandas `.mean()`). -/
def meanQ (xs : List ℚ) : ℚ := xs.sum / (xs.length : ℚ)

/-- The fares of the rows at a given pickup hour. -/
def faresAtHour (df : List ETrip) (h : Int) : List ℚ :=
  (df.filter (fun r => decide (r.base.pickup_hour = h))).map
    (fun r => r.base.fare_amount)

/-- Aggregation `agg_hourly_fare` of `pages/1_Dashboard.py`: group by
`pickup_hour` (only hours present in the frame form groups), mean of
`fare_amount`, sorted ascending by hour. -/
def agg_hourly_fare (df : List ETrip) : List (Int × ℚ) :=
  (observedHours df).map (fun h => (h, meanQ (faresAtHour df h)))

/-- Comparison for `value_counts()` output order: count descending
(tied order unspecified by pandas; the embedding fixes one). -/
def countGeS (a b : String × Nat) : Prop := b.2 ≤ a.2

instance : DecidableRel countGeS := fun a b => Nat.decLe b.2 a.2

/-- Aggregation `agg_payment` of `pages/1_Dashboard.py`:
`value_counts` of `payment_name` as a two-column table. -/
def agg_payment (df : List ETrip) : List (String × Nat) :=
  List.insertionSort countGeS
    ((df.map (fun r => r.payment_name)).dedup.map
      (fun n => (n, (df.map (fun r => r.payment_name)).count n)))

/-- Aggregation `agg_heatmap` of `pages/1_Dashboard.py`: group by
`(pickup_day_of_week, pickup_hour)` with `observed=False` — the
weekday column is categorical over `DAY_ORDER`, so all 7 categories
appear as group levels, while the plain `pickup_hour` column
contributes only its observed values — then pivot to a weekday × hour
matrix, `fillna(0)`.  On an empty frame the group product is empty and
the pivot is the empty frame. -/
def agg_heatmap (df : List ETrip) : List (String × List Nat) :=
  if (observedHours df).isEmpty then []
  else
    DAY_ORDER.map (fun d =>
      (d, (observedHours df).map (fun h =>
        df.countP (fun r =>
          decide (r.base.pickup_day_of_week = d) &&
          decide (r.base.pickup_hour = h)))))

/-- Derived columns present in the frame at the moment
`pages/1_Dashboard.py` writes the clean cache artifact
(`df.to_parquet(CLEAN_PATH)`): `pickup_date` is assigned only after
the cache branch, so it is not among them. -/
def dashboardPersistedDerived : List String :=
  ["trip_duration_minutes", "trip_speed_mph", "pickup_hour", "pickup_day_of_week"]

/-- Derived columns present in the frame at the moment `app.py` writes
the clean cache artifact: there `pickup_date` is assigned before the
save. -/
def overviewPersistedDerived : List String :=
  ["trip_duration_minutes", "trip_speed_mph", "pickup_hour", "pickup_day_of_week",
   "pickup_date"]

/-- Modelled from the spec: the five derived fields the spec says the
persisted clean artifact contains. -/
def specDerivedFields : List String :=
  ["trip_duration_minutes", "trip_speed_mph", "pickup_hour", "pickup_day_of_week",
   "pickup_date"]

/-- Example raw trip: Jan 1 2024 00:00 → 00:01, 2 miles, fare 10. -/
def exRaw0 : RawTrip :=
  { tpep_pickup_datetime := some 0
    tpep_dropoff_datetime := some 60
    PULocationID := some 1
    DOLocationID := some 2
    fare_amount := some 10
    trip_distance := 2
    passenger_count := 1
    payment_type := 1
    total_amount := 12 }

/-- Cleaned form of `exRaw0`: 1 minute duration, 120 mph, hour 0,
Monday. -/
def exClean0 : CTrip :=
  { tpep_pickup_datetime := 0
    tpep_dropoff_datetime := 60
    PULocationID := 1
    DOLocationID := 2
    fare_amount := 10
    trip_distance := 2
    passenger_count := 1
    payment_type := 1
    total_amount := 12
    trip_duration_minutes := 1
    trip_speed_mph := .fin 120
    pickup_hour := 0
    pickup_day_of_week := "Monday" }

/-- Example raw trip with chosen pickup time and pickup zone id. -/
def mkRaw (p pu : Int) : RawTrip :=
  { tpep_pickup_datetime := some p
    tpep_dropoff_datetime := some (p + 60)
    PULocationID := some pu
    DOLocationID := some 1
    fare_amount := some 10
    trip_distance := 2
    passenger_count := 1
    payment_type := 1
    total_amount := 12 }

/-- Example zone lookup whose zone names are deliberately not in the
order of their location ids. -/
def zonesABC : List Zone := [⟨1, "M", "B"⟩, ⟨2, "M", "A"⟩, ⟨3, "M", "C"⟩]

/-- Example view containing trips at pickup hours 3 and 5 only. -/
def viewHours35 : List ETrip :=
  dashboardView zonesABC [mkRaw (3*3600) 1, mkRaw (5*3600) 1]

/-- Example view whose first-seen zone key order is B, A, C while all
zone counts are tied at 1. -/
def viewZonesBAC : List ETrip :=
  dashboardView zonesABC [mkRaw 0 1, mkRaw 60 2, mkRaw 120 3]

/-- Example view containing a single trip, at pickup hour 5. -/
def viewHour5 : List ETrip := dashboardView zonesABC [mkRaw (5*3600) 1]

end Taxi

namespace Taxi

/-- Characterization of a surviving row of the Dashboard Cleaner:
the critical raw columns were non-null, every cleaning guard holds,
and each derived column has its defining form. -/
theorem cleanRowDashboard_eq_some {r : RawTrip} {c : CTrip}
    (h : cleanRowDashboard r = some c) :
    r.tpep_pickup_datetime = some c.tpep_pickup_datetime ∧
    r.tpep_dropoff_datetime = some c.tpep_dropoff_datetime ∧
    r.PULocationID = some c.PULocationID ∧
    r.DOLocationID = some c.DOLocationID ∧
    r.fare_amount = some c.fare_amount ∧
    c.trip_distance = r.trip_distance ∧
    c.passenger_count = r.passenger_count ∧
    (0 ≤ c.tpep_pickup_datetime ∧ c.tpep_pickup_datetime < monthSeconds) ∧
    0 < c.trip_distance ∧ 0 ≤ c.fare_amount ∧ c.fare_amount ≤ 500 ∧
    c.tpep_pickup_datetime ≤ c.tpep_dropoff_datetime ∧
    0 < c.passenger_count ∧ c.trip_distance < 50 ∧
    c.trip_duration_minutes =
      ((c.tpep_dropoff_datetime - c.tpep_pickup_datetime : Int) : ℚ) / 60 ∧
    c.trip_speed_mph =
      fillnaWithZero (replaceInfWithZero
        (fdivF c.trip_distance (c.trip_duration_minutes / 60))) ∧
    c.pickup_hour = pickupHourOf c.tpep_pickup_datetime ∧
    c.pickup_day_of_week = dayNameOf c.tpep_pickup_datetime := by
  obtain ⟨op, od, opu, odl, ofr, dist, pc, pt, tot⟩ := r
  dsimp only [cleanRowDashboard] at h
  rcases op with _ | p
  · exact Option.noConfusion h
  rcases od with _ | d
  · exact Option.noConfusion h
  rcases opu with _ | pu
  · exact Option.noConfusion h
  rcases odl with _ | dl
  · exact Option.noConfusion h
  rcases ofr with _ | f
  · exact Option.noConfusion h
  dsimp only at h
  by_cases hcond : 0 ≤ p ∧ p < monthSeconds ∧ 0 < dist ∧ 0 ≤ f ∧ f ≤ 500 ∧
      p ≤ d ∧ 0 < pc ∧ dist < 50
  · rw [if_pos hcond] at h
    obtain ⟨h1, h2, h3, h4, h5, h6, h7, h8⟩ := hcond
    injection h with h
    subst h
    exact ⟨rfl, rfl, rfl, rfl, rfl, rfl, rfl, ⟨h1, h2⟩, h3, h4, h5, h6, h7, h8,
      rfl, rfl, rfl, rfl⟩
  · rw [if_neg hcond] at h
    exact Option.noConfusion h

end Taxi

namespace Taxi

/-- Claim C3: every row of the Cleaner's output satisfies all cleaning
invariants — dropoff ≥ pickup, 0 < distance < 50, 0 ≤ fare ≤ 500,
passenger_count > 0, duration_minutes ≥ 0, pickup inside the target
calendar month — and originates from a raw row whose critical columns
(pickup, dropoff, pickup zone id, dropoff zone id, fare) are all
non-null; the cleaned row itself carries them as plain (non-`Option`)
values. -/
theorem cleaner_invariants (raws : List RawTrip) (c : CTrip)
    (hc : c ∈ cleanDashboard raws) :
    c.tpep_pickup_datetime ≤ c.tpep_dropoff_datetime ∧
    0 < c.trip_distance ∧ c.trip_distance < 50 ∧
    0 ≤ c.fare_amount ∧ c.fare_amount ≤ 500 ∧
    0 < c.passenger_count ∧
    0 ≤ c.trip_duration_minutes ∧
    0 ≤ c.tpep_pickup_datetime ∧ c.tpep_pickup_datetime < monthSeconds ∧
    ∃ r ∈ raws,
      r.tpep_pickup_datetime = some c.tpep_pickup_datetime ∧
      r.tpep_dropoff_datetime = some c.tpep_dropoff_datetime ∧
      r.PULocationID = some c.PULocationID ∧
      r.DOLocationID = some c.DOLocationID ∧
      r.fare_amount = some c.fare_amount := by
  obtain ⟨r, hr, hsome⟩ := List.mem_filterMap.mp hc
  obtain ⟨e1, e2, e3, e4, e5, _, _, ⟨hm1, hm2⟩, hdist1, hf1, hf2, hdd, hpc, hdist2,
    hdur, _, _, _⟩ := cleanRowDashboard_eq_some hsome
  refine ⟨hdd, hdist1, hdist2, hf1, hf2, hpc, ?_, hm1, hm2, r, hr, e1, e2, e3, e4, e5⟩
  rw [hdur]
  have hnum : (0:ℚ) ≤ ((c.tpep_dropoff_datetime - c.tpep_pickup_datetime : Int) : ℚ) := by
    exact_mod_cast Int.sub_nonneg.mpr hdd
  exact div_nonneg hnum (by norm_num)

end Taxi

namespace Taxi

/-- Claim C5: for every cleaned row the stored speed is a finite
rational ≥ 0 — the float division never yields NaN (distance is
strictly positive, ruling out 0/0), and a zero duration produces an
infinity that the replace/fillna steps clamp to 0. -/
theorem speed_clamped (raws : List RawTrip) (c : CTrip)
    (hc : c ∈ cleanDashboard raws) :
    (∃ q : ℚ, c.trip_speed_mph = FVal.fin q ∧ 0 ≤ q) ∧
    fdivF c.trip_distance (c.trip_duration_minutes / 60) ≠ FVal.nan ∧
    (c.trip_duration_minutes = 0 → c.trip_speed_mph = FVal.fin 0) := by
  obtain ⟨r, hr, hsome⟩ := List.mem_filterMap.mp hc
  obtain ⟨_, _, _, _, _, _, _, _, hdist1, _, _, hdd, _, _, hdur, hspeed, _, _⟩ :=
    cleanRowDashboard_eq_some hsome
  have hdur0 : 0 ≤ c.trip_duration_minutes := by
    rw [hdur]
    have hnum : (0:ℚ) ≤ ((c.tpep_dropoff_datetime - c.tpep_pickup_datetime : Int) : ℚ) := by
      exact_mod_cast Int.sub_nonneg.mpr hdd
    exact div_nonneg hnum (by norm_num)
  by_cases hz : c.trip_duration_minutes = 0
  · have hfd : fdivF c.trip_distance (c.trip_duration_minutes / 60) = FVal.inf := by
      rw [hz]
      simp only [fdivF, zero_div, ne_eq, not_true_eq_false, if_false, if_pos hdist1]
    refine ⟨⟨0, ?_, le_refl 0⟩, by rw [hfd]; intro hcon; exact FVal.noConfusion hcon, fun _ => ?_⟩
    · rw [hspeed, hfd]; rfl
    · rw [hspeed, hfd]; rfl
  · have hpos : 0 < c.trip_duration_minutes := lt_of_le_of_ne hdur0 (Ne.symm hz)
    have hne : c.trip_duration_minutes / 60 ≠ 0 := by positivity
    have hfd : fdivF c.trip_distance (c.trip_duration_minutes / 60) =
        FVal.fin (c.trip_distance / (c.trip_duration_minutes / 60)) := by
      simp only [fdivF, ne_eq, hne, not_false_eq_true, if_true]
    refine ⟨⟨c.trip_distance / (c.trip_duration_minutes / 60), ?_, ?_⟩,
      by rw [hfd]; intro hcon; exact FVal.noConfusion hcon, fun hcon => absurd hcon hz⟩
    · rw [hspeed, hfd]; rfl
    · exact div_nonneg (le_of_lt hdist1) (by positivity)

/-- Row-level agreement of the two duplicated cleaning pipelines:
projecting away `pickup_date` from the overview row gives exactly the
dashboard row, for every raw record. -/
theorem pipelines_row_agree (r : RawTrip) :
    Option.map sharedOfOverview (cleanRowOverview r) = cleanRowDashboard r := by
  obtain ⟨op, od, opu, odl, ofr, dist, pc, pt, tot⟩ := r
  rcases op with _ | p <;> rcases od with _ | d <;> rcases opu with _ | pu <;>
    rcases odl with _ | dl <;> rcases ofr with _ | f <;>
      simp only [cleanRowOverview, cleanRowDashboard] <;> try rfl
  by_cases hcond : 0 ≤ p ∧ p < monthSeconds ∧ 0 < dist ∧ 0 ≤ f ∧ f ≤ 500 ∧
      p ≤ d ∧ 0 < pc ∧ dist < 50
  · rw [if_pos hcond, if_pos hcond]
    rfl
  · rw [if_neg hcond, if_neg hcond]
    rfl

/-- Claim C10: the duplicated cleaning pipelines of `app.py` and
`pages/1_Dashboard.py`, run on the same raw trips with no cache
artifact, keep exactly the same rows and compute identical values for
the shared derived columns (`trip_duration_minutes`, `trip_speed_mph`,
`pickup_hour`, `pickup_day_of_week`): the overview output projected
onto the shared columns equals the dashboard output. -/
theorem pipelines_agree (raws : List RawTrip) :
    (cleanOverview raws).map sharedOfOverview = cleanDashboard raws := by
  induction raws with
  | nil => rfl
  | cons r rs ih =>
    simp only [cleanOverview, cleanDashboard, List.filterMap_cons] at ih ⊢
    rw [← pipelines_row_agree r]
    cases hro : cleanRowOverview r with
    | none => simpa using ih
    | some o => simpa using ih

end Taxi

namespace Taxi

/-- With pairwise-distinct location ids, at most one lookup row
matches a given pickup location id. -/
theorem filter_key_length {zones : List Zone}
    (hnd : (zones.map Zone.LocationID).Nodup) (k : Int) :
    (zones.filter (fun z => decide (z.LocationID = k))).length ≤ 1 := by
  induction zones with
  | nil => simp
  | cons z zs ih =>
    rw [List.map_cons, List.nodup_cons] at hnd
    rw [List.filter_cons]
    by_cases hk : z.LocationID = k
    · have hnil : zs.filter (fun z => decide (z.LocationID = k)) = [] := by
        apply List.filter_eq_nil_iff.mpr
        intro z' hz'
        simp only [decide_eq_true_eq]
        intro hz'k
        apply hnd.1
        have : z.LocationID ∈ List.map Zone.LocationID zs := by
          rw [hk, ← hz'k]
          exact List.mem_map_of_mem _ hz'
        exact this
      simp [hk, hnil]
    · simp only [hk, decide_eq_true_eq, if_neg]
      simp [hk]
      exact ih hnd.2

/-- With a duplicate-free lookup, the left join emits exactly one
output row per cleaned row. -/
theorem enrichRow_length (zones : List Zone) (c : CTrip)
    (hnd : (zones.map Zone.LocationID).Nodup) :
    (enrichRow zones c).length = 1 := by
  unfold enrichRow
  by_cases he : (zones.filter (fun z => decide (z.LocationID = c.PULocationID))).isEmpty
  · rw [if_pos he]; rfl
  · rw [if_neg he, List.length_map]
    have hle := filter_key_length hnd c.PULocationID
    have hne : (zones.filter (fun z => decide (z.LocationID = c.PULocationID))).length ≠ 0 := by
      simpa [List.isEmpty_iff, List.length_eq_zero] using he
    omega

/-- Claim C8: when the zone lookup has pairwise-distinct location ids
(it is a mapping), the Enricher's left join preserves the number of
rows of the cleaned dataset, and every output row whose pickup
location id has no match in the lookup gets null `pickup_borough` and
`pickup_zone`. -/
theorem enrich_left_join (zones : List Zone) (rows : List CTrip)
    (hnd : (zones.map Zone.LocationID).Nodup) :
    (enrichDashboard zones rows).length = rows.length ∧
    ∀ e ∈ enrichDashboard zones rows,
      (∀ z ∈ zones, z.LocationID ≠ e.base.PULocationID) →
      e.pickup_borough = none ∧ e.pickup_zone = none := by
  constructor
  · induction rows with
    | nil => rfl
    | cons c cs ih =>
      show (enrichRow zones c ++ cs.flatMap (enrichRow zones)).length = cs.length + 1
      rw [List.length_append, enrichRow_length zones c hnd]
      show 1 + (cs.flatMap (enrichRow zones)).length = cs.length + 1
      rw [show (cs.flatMap (enrichRow zones)).length = cs.length from ih]
      omega
  · intro e he hnomatch
    obtain ⟨c, hc, hec⟩ := List.mem_flatMap.mp he
    unfold enrichRow at hec
    by_cases hemp : (zones.filter (fun z => decide (z.LocationID = c.PULocationID))).isEmpty
    · rw [if_pos hemp] at hec
      have := List.mem_singleton.mp hec
      subst this
      exact ⟨rfl, rfl⟩
    · rw [if_neg hemp] at hec
      obtain ⟨z, hz, hze⟩ := List.mem_map.mp hec
      have hmem := List.mem_filter.mp hz
      have hkey : z.LocationID = c.PULocationID := of_decide_eq_true hmem.2
      subst hze
      exact absurd hkey (hnomatch z hmem.1)

/-- Every row of the enriched frame wraps some row of the cleaned
frame, with `pickup_date` and `payment_name` derived from it. -/
theorem mem_dashboardView {zones : List Zone} {raws : List RawTrip} {e : ETrip}
    (he : e ∈ dashboardView zones raws) :
    ∃ c ∈ cleanDashboard raws, e.base = c ∧
      e.pickup_date = pickupDateOf c.tpep_pickup_datetime ∧
      e.payment_name = paymentNameOf c.payment_type := by
  obtain ⟨c, hc, hec⟩ := List.mem_flatMap.mp he
  unfold enrichRow at hec
  by_cases hemp : (zones.filter (fun z => decide (z.LocationID = c.PULocationID))).isEmpty
  · rw [if_pos hemp] at hec
    have := List.mem_singleton.mp hec
    subst this
    exact ⟨c, hc, rfl, rfl, rfl⟩
  · rw [if_neg hemp] at hec
    obtain ⟨z, hz, hze⟩ := List.mem_map.mp hec
    subst hze
    exact ⟨c, hc, rfl, rfl, rfl⟩

/-- The derived `pickup_hour` of a cleaned row lies in `[0, 23]`. -/
theorem cleanDashboard_hour_bounds {raws : List RawTrip} {c : CTrip}
    (hc : c ∈ cleanDashboard raws) :
    0 ≤ c.pickup_hour ∧ c.pickup_hour ≤ 23 := by
  obtain ⟨r, _, hsome⟩ := List.mem_filterMap.mp hc
  obtain ⟨_, _, _, _, _, _, _, _, _, _, _, _, _, _, _, _, hhour, _⟩ :=
    cleanRowDashboard_eq_some hsome
  rw [hhour]
  unfold pickupHourOf
  refine ⟨Int.emod_nonneg _ (by norm_num), ?_⟩
  have h24 := Int.emod_lt_of_pos (c.tpep_pickup_datetime.fdiv 3600)
    (show (0:Int) < 24 by norm_num)
  omega

theorem foldl_min_le_init (xs : List Int) (a : Int) : xs.foldl min a ≤ a := by
  induction xs generalizing a with
  | nil => exact le_refl a
  | cons x xs ih =>
    calc (x :: xs).foldl min a = xs.foldl min (min a x) := rfl
    _ ≤ min a x := ih (min a x)
    _ ≤ a := min_le_left a x

theorem foldl_min_le_mem (xs : List Int) (a : Int) {y : Int} (hy : y ∈ xs) :
    xs.foldl min a ≤ y := by
  induction xs generalizing a with
  | nil => cases hy
  | cons x xs ih =>
    rcases List.mem_cons.mp hy with rfl | hmem
    · calc (y :: xs).foldl min a = xs.foldl min (min a y) := rfl
      _ ≤ min a y := foldl_min_le_init xs (min a y)
      _ ≤ y := min_le_right a y
    · exact ih (min a x) hmem

theorem colMin_le {l : List Int} {y : Int} (hy : y ∈ l) : colMin l ≤ y := by
  cases l with
  | nil => cases hy
  | cons x xs =>
    rcases List.mem_cons.mp hy with rfl | hmem
    · exact foldl_min_le_init xs y
    · exact foldl_min_le_mem xs x hmem

theorem le_foldl_max_init (xs : List Int) (a : Int) : a ≤ xs.foldl max a := by
  induction xs generalizing a with
  | nil => exact le_refl a
  | cons x xs ih =>
    calc a ≤ max a x := le_max_left a x
    _ ≤ xs.foldl max (max a x) := ih (max a x)
    _ = (x :: xs).foldl max a := rfl

theorem le_foldl_max_mem (xs : List Int) (a : Int) {y : Int} (hy : y ∈ xs) :
    y ≤ xs.foldl max a := by
  induction xs generalizing a with
  | nil => cases hy
  | cons x xs ih =>
    rcases List.mem_cons.mp hy with rfl | hmem
    · calc y ≤ max a y := le_max_right a y
      _ ≤ xs.foldl max (max a y) := le_foldl_max_init xs (max a y)
      _ = (y :: xs).foldl max a := rfl
    · exact ih (max a x) hmem

theorem le_colMax {l : List Int} {y : Int} (hy : y ∈ l) : y ≤ colMax l := by
  cases l with
  | nil => cases hy
  | cons x xs =>
    rcases List.mem_cons.mp hy with rfl | hmem
    · exact le_foldl_max_init xs y
    · exact le_foldl_max_mem xs x hmem

/-- Claim C6: applying the sidebar filter with the full date range
(column minimum to maximum of `pickup_date`), the hour range
`[0, 23]`, and the full payment-label option list returns the
enriched dataset unchanged. -/
theorem full_filter_identity (zones : List Zone) (raws : List RawTrip) :
    applyFilter (dashboardView zones raws)
      (colMin ((dashboardView zones raws).map (fun r => r.pickup_date)))
      (colMax ((dashboardView zones raws).map (fun r => r.pickup_date)))
      0 23 (payment_options (dashboardView zones raws)) = dashboardView zones raws := by
  apply List.filter_eq_self.mpr
  intro e he
  have hdmem : e.pickup_date ∈ (dashboardView zones raws).map (fun r => r.pickup_date) :=
    List.mem_map_of_mem _ he
  obtain ⟨c, hc, hbase, _, _⟩ := mem_dashboardView he
  have hhour := cleanDashboard_hour_bounds hc
  rw [← hbase] at hhour
  have hpay : e.payment_name ∈ payment_options (dashboardView zones raws) := by
    unfold payment_options
    rw [List.mem_insertionSort, List.mem_dedup]
    exact List.mem_map_of_mem _ he
  simp only [Bool.and_eq_true, decide_eq_true_eq]
  refine ⟨⟨⟨⟨colMin_le hdmem, le_colMax hdmem⟩, hhour.1⟩, hhour.2⟩, ?_⟩
  exact List.elem_eq_true_of_mem hpay

/-- Claim C7: an empty payment selection filters any frame to the
empty view, and on the empty view each of the four aggregators
returns its empty form without failing. -/
theorem empty_view_aggregates (df : List ETrip) (s e h0 h1 : Int) :
    applyFilter df s e h0 h1 [] = [] ∧
    agg_top10_zones [] = [] ∧ agg_hourly_fare [] = [] ∧
    agg_payment [] = [] ∧ agg_heatmap [] = [] := by
  refine ⟨?_, rfl, rfl, rfl, rfl⟩
  apply List.filter_eq_nil_iff.mpr
  intro r _
  simp

end Taxi

namespace Taxi

/-- Observed pickup hours are pairwise distinct. -/
theorem observedHours_nodup (df : List ETrip) : (observedHours df).Nodup :=
  (List.perm_insertionSort _ _).nodup_iff.mpr (List.nodup_dedup _)

/-- Every row's pickup hour occurs among the observed hours. -/
theorem mem_observedHours {df : List ETrip} {r : ETrip} (hr : r ∈ df) :
    r.base.pickup_hour ∈ observedHours df := by
  unfold observedHours
  rw [List.mem_insertionSort, List.mem_dedup]
  exact List.mem_map_of_mem _ hr

/-- Claim C2 (amended): `agg_hourly_fare` returns one row per
distinct pickup hour present in the view — not per hour of the
covered hour range — with the mean fare of that hour, sorted
ascending by hour and duplicate-free. -/
theorem hourly_fare_amended (df : List ETrip) :
    (agg_hourly_fare df).map Prod.fst = observedHours df ∧
    ((agg_hourly_fare df).map Prod.fst).Nodup ∧
    List.Sorted (· ≤ ·) ((agg_hourly_fare df).map Prod.fst) ∧
    (∀ h : Int, h ∈ (agg_hourly_fare df).map Prod.fst ↔
      ∃ r ∈ df, r.base.pickup_hour = h) ∧
    ∀ e ∈ agg_hourly_fare df, e.2 = meanQ (faresAtHour df e.1) := by
  have hfst : (agg_hourly_fare df).map Prod.fst = observedHours df := by
    unfold agg_hourly_fare
    rw [List.map_map]
    exact List.map_id _
  refine ⟨hfst, ?_, ?_, ?_, ?_⟩
  · rw [hfst]; exact observedHours_nodup df
  · rw [hfst]
    exact List.sorted_insertionSort _ _
  · intro h
    rw [hfst]
    unfold observedHours
    rw [List.mem_insertionSort, List.mem_dedup, List.mem_map]
  · intro e he
    obtain ⟨h, _, rfl⟩ := List.mem_map.mp he
    rfl

/-- Claim C4 (amended): `agg_top10_zones` returns at most 10 rows,
sorted non-increasing by count, and every returned row pairs a group
key present in the view with that group's exact row count.  The
original tie-break clause fails: the groupby emits groups in key
order, not first-seen order (see the counterexample). -/
theorem top_zones_amended (df : List ETrip) :
    (agg_top10_zones df).length ≤ 10 ∧
    List.Sorted countGe (agg_top10_zones df) ∧
    ∀ e ∈ agg_top10_zones df,
      e.1 ∈ keyedZones df ∧ e.2 = (keyedZones df).count e.1 := by
  refine ⟨?_, ?_, ?_⟩
  · unfold agg_top10_zones
    simp
  · unfold agg_top10_zones
    exact (List.sorted_insertionSort countGe _).sublist (List.take_sublist 10 _)
  · intro e he
    unfold agg_top10_zones at he
    have h1 := List.mem_of_mem_take he
    rw [List.mem_insertionSort] at h1
    obtain ⟨k, hk, hke⟩ := List.mem_map.mp h1
    rw [List.mem_insertionSort, List.mem_dedup] at hk
    cases hke
    exact ⟨hk, rfl⟩

/-- Summing the indicator of a fixed element over a duplicate-free
list containing it gives 1. -/
theorem sum_map_ite_eq_one {κ : Type} [DecidableEq κ] {keys : List κ} {x : κ}
    (hnd : keys.Nodup) (hx : x ∈ keys) :
    (keys.map (fun k => if x = k then 1 else 0)).sum = 1 := by
  induction keys with
  | nil => cases hx
  | cons a ks ih =>
    rw [List.nodup_cons] at hnd
    rcases List.mem_cons.mp hx with rfl | hmem
    · rw [List.map_cons, List.sum_cons, if_pos rfl]
      have hz : (ks.map (fun k => if x = k then 1 else 0)).sum = 0 := by
        apply List.sum_eq_zero
        intro n hn
        obtain ⟨k, hk, hkn⟩ := List.mem_map.mp hn
        rw [← hkn, if_neg]
        intro hxk
        exact hnd.1 (hxk ▸ hk)
      rw [hz]
    · rw [List.map_cons, List.sum_cons, if_neg, ih hnd.2 hmem]
      intro hxa
      exact hnd.1 (hxa ▸ hmem)

/-- Sums of pointwise sums split. -/
theorem sum_map_addf {κ : Type} (keys : List κ) (f g : κ → Nat) :
    (keys.map (fun k => f k + g k)).sum = (keys.map f).sum + (keys.map g).sum := by
  induction keys with
  | nil => rfl
  | cons a ks ih =>
    simp only [List.map_cons, List.sum_cons, ih]
    omega

/-- Counting rows per key and summing over a duplicate-free key list
covering all rows recovers the total count. -/
theorem sum_countP_partition {α κ : Type} [DecidableEq κ]
    (rows : List α) (keys : List κ) (key : α → κ) (p : α → Bool)
    (hnd : keys.Nodup) (hmem : ∀ r ∈ rows, key r ∈ keys) :
    (keys.map (fun k => rows.countP (fun x => p x && decide (key x = k)))).sum
      = rows.countP p := by
  induction rows with
  | nil =>
    simp [List.countP_nil]
  | cons r rs ih =>
    have hmem' : ∀ x ∈ rs, key x ∈ keys := fun x hx => hmem x (List.mem_cons_of_mem r hx)
    have hkr : key r ∈ keys := hmem r (List.mem_cons_self r rs)
    simp only [List.countP_cons]
    rw [sum_map_addf]
    rw [ih hmem']
    by_cases hp : p r = true
    · rw [if_pos hp]
      simp only [hp, Bool.true_and, decide_eq_true_eq]
      rw [sum_map_ite_eq_one hnd hkr]
    · have hpf : p r = false := by
        cases hpr : p r
        · rfl
        · exact absurd hpr hp
      rw [if_neg hp]
      simp only [hpf, Bool.false_and]
      have hz : (keys.map (fun _ => ite ((false : Bool) = true) 1 0)).sum = 0 := by
        apply List.sum_eq_zero
        intro n hn
        obtain ⟨k, _, hkn⟩ := List.mem_map.mp hn
        simpa using hkn.symm
      rw [hz]

/-- The observed-hours list is empty exactly on the empty frame. -/
theorem observedHours_eq_nil {df : List ETrip} : observedHours df = [] ↔ df = [] := by
  unfold observedHours
  constructor
  · intro h
    have hlen := (List.perm_insertionSort (· ≤ ·)
      (df.map (fun r => r.base.pickup_hour)).dedup).length_eq
    rw [h] at hlen
    have hded : (df.map (fun r => r.base.pickup_hour)).dedup = [] :=
      List.length_eq_zero.mp hlen.symm
    rw [List.dedup_eq_nil] at hded
    exact List.map_eq_nil_iff.mp hded
  · intro h
    subst h
    rfl

/-- Claim C1 (amended): `agg_heatmap` returns a matrix of
7 × (number of distinct pickup hours present in the view) cells — not
always 7 × 24 — with weekday rows in the fixed order Monday→Sunday on
a non-empty view, every cell ≥ 0, and the cells summing to the number
of rows of the view. -/
theorem heatmap_amended (df : List ETrip)
    (hday : ∀ r ∈ df, r.base.pickup_day_of_week ∈ DAY_ORDER) :
    ((agg_heatmap df).map (fun row => row.2.length)).sum
        = 7 * (observedHours df).length ∧
    (agg_heatmap df).map Prod.fst = (if df.isEmpty then [] else DAY_ORDER) ∧
    (∀ row ∈ agg_heatmap df, ∀ cell ∈ row.2, 0 ≤ cell) ∧
    ((agg_heatmap df).map (fun row => row.2.sum)).sum = df.length := by
  by_cases hemp : df = []
  · subst hemp
    refine ⟨rfl, rfl, ?_, rfl⟩
    intro row hrow
    cases hrow
  · have hne : ¬ (observedHours df).isEmpty = true := by
      rw [List.isEmpty_iff]
      intro hnil
      exact hemp (observedHours_eq_nil.mp hnil)
    have hdfne : df.isEmpty = false := by
      cases hdf : df.isEmpty
      · rfl
      · exact absurd (List.isEmpty_iff.mp hdf) hemp
    unfold agg_heatmap
    rw [if_neg hne]
    refine ⟨?_, ?_, ?_, ?_⟩
    · rw [List.map_map]
      have hconst : (DAY_ORDER.map ((fun row : String × List Nat => row.2.length) ∘
          (fun d => (d, (observedHours df).map (fun h => df.countP (fun r =>
            decide (r.base.pickup_day_of_week = d) &&
            decide (r.base.pickup_hour = h))))))).sum
          = (DAY_ORDER.map (fun _ => (observedHours df).length)).sum := by
        congr 1
        apply List.map_congr_left
        intro d _
        simp [List.length_map]
      rw [hconst]
      simp [List.map_const, List.sum_replicate, DAY_ORDER]
      omega
    · rw [hdfne, if_neg (by simp : ¬ (false = true)), List.map_map]
      exact List.map_id _
    · intro row _ cell _
      exact Nat.zero_le cell
    · rw [List.map_map]
      have hrow : ∀ d, ((observedHours df).map (fun h => df.countP (fun r =>
          decide (r.base.pickup_day_of_week = d) &&
          decide (r.base.pickup_hour = h)))).sum
          = df.countP (fun r => decide (r.base.pickup_day_of_week = d)) := by
        intro d
        exact sum_countP_partition df (observedHours df)
          (fun r => r.base.pickup_hour)
          (fun r => decide (r.base.pickup_day_of_week = d))
          (observedHours_nodup df)
          (fun r hr => mem_observedHours hr)
      have hmapeq : (DAY_ORDER.map ((fun row : String × List Nat => row.2.sum) ∘
          (fun d => (d, (observedHours df).map (fun h => df.countP (fun r =>
            decide (r.base.pickup_day_of_week = d) &&
            decide (r.base.pickup_hour = h))))))).sum
          = (DAY_ORDER.map (fun d =>
              df.countP (fun r => decide (r.base.pickup_day_of_week = d)))).sum := by
        congr 1
        apply List.map_congr_left
        intro d _
        exact hrow d
      rw [hmapeq]
      have houter := sum_countP_partition df DAY_ORDER
        (fun r => r.base.pickup_day_of_week) (fun _ => true)
        (by decide) hday
      simp only [Bool.true_and] at houter
      rw [houter]
      exact congrFun List.countP_true df

end Taxi

namespace Taxi

/-- Claim C2 counterexample: on a pipeline-built view with trips at
hours 3 and 5 only, the covered hour range 3–5 contains hour 4, yet
`agg_hourly_fare` has no row for hour 4 — groupby only emits hours
with at least one trip. -/
theorem hourly_fare_gap_counterexample :
    (agg_hourly_fare viewHours35).map Prod.fst = [3, 5] ∧
    ¬ (∀ h : Int, 3 ≤ h → h ≤ 5 → h ∈ (agg_hourly_fare viewHours35).map Prod.fst) :=
  ⟨by decide, fun hall => absurd (hall 4 (by norm_num) (by norm_num)) (by decide)⟩

/-- Claim C4 counterexample: on a pipeline-built view whose group
keys in first-seen order are B, A, C with all counts tied at 1,
`agg_top10_zones` does not return the groups in first-seen order —
the groupby sorts group keys before the count sort, so tie order
derives from key order. -/
theorem top_zones_tie_counterexample :
    keyedZones viewZonesBAC = [("B", "M"), ("A", "M"), ("C", "M")] ∧
    (∀ e ∈ agg_top10_zones viewZonesBAC, e.2 = 1) ∧
    (agg_top10_zones viewZonesBAC).map Prod.fst ≠ [("B", "M"), ("A", "M"), ("C", "M")] :=
  ⟨by decide, by decide, by decide⟩

/-- Claim C1 counterexample: on a pipeline-built view with a single
trip at hour 5, `agg_heatmap` has 7 cells (one observed hour column),
not the claimed 7 × 24 = 168. -/
theorem heatmap_cells_counterexample :
    ((agg_heatmap viewHour5).map (fun row => row.2.length)).sum = 7 ∧
    ¬ ((agg_heatmap viewHour5).map (fun row => row.2.length)).sum = 168 :=
  ⟨by decide, by decide⟩

/-- Witness for the amended Claim C1 theorem at a concrete one-trip
view. -/
theorem heatmap_amended_witness :
    (∀ r ∈ viewHour5, r.base.pickup_day_of_week ∈ DAY_ORDER) ∧
    (((agg_heatmap viewHour5).map (fun row => row.2.length)).sum
        = 7 * (observedHours viewHour5).length ∧
      (agg_heatmap viewHour5).map Prod.fst
        = (if viewHour5.isEmpty then [] else DAY_ORDER) ∧
      (∀ row ∈ agg_heatmap viewHour5, ∀ cell ∈ row.2, 0 ≤ cell) ∧
      ((agg_heatmap viewHour5).map (fun row => row.2.sum)).sum = viewHour5.length) :=
  ⟨by decide, heatmap_amended viewHour5 (by decide)⟩

/-- Witness for Claim C3 at a concrete raw trip. -/
theorem cleaner_invariants_witness :
    exClean0.tpep_pickup_datetime ≤ exClean0.tpep_dropoff_datetime ∧
    0 < exClean0.trip_distance ∧ exClean0.trip_distance < 50 ∧
    0 ≤ exClean0.fare_amount ∧ exClean0.fare_amount ≤ 500 ∧
    0 < exClean0.passenger_count ∧
    0 ≤ exClean0.trip_duration_minutes ∧
    0 ≤ exClean0.tpep_pickup_datetime ∧ exClean0.tpep_pickup_datetime < monthSeconds ∧
    ∃ r ∈ [exRaw0],
      r.tpep_pickup_datetime = some exClean0.tpep_pickup_datetime ∧
      r.tpep_dropoff_datetime = some exClean0.tpep_dropoff_datetime ∧
      r.PULocationID = some exClean0.PULocationID ∧
      r.DOLocationID = some exClean0.DOLocationID ∧
      r.fare_amount = some exClean0.fare_amount :=
  cleaner_invariants [exRaw0] exClean0 (by
    norm_num [cleanDashboard, List.filterMap_cons, List.filterMap_nil, cleanRowDashboard,
      exRaw0, exClean0, monthSeconds, fdivF, fillnaWithZero, replaceInfWithZero,
      pickupHourOf, dayNameOf])

/-- Witness for Claim C5 at a concrete raw trip. -/
theorem speed_clamped_witness :
    (∃ q : ℚ, exClean0.trip_speed_mph = FVal.fin q ∧ 0 ≤ q) ∧
    fdivF exClean0.trip_distance (exClean0.trip_duration_minutes / 60) ≠ FVal.nan ∧
    (exClean0.trip_duration_minutes = 0 → exClean0.trip_speed_mph = FVal.fin 0) :=
  speed_clamped [exRaw0] exClean0 (by
    norm_num [cleanDashboard, List.filterMap_cons, List.filterMap_nil, cleanRowDashboard,
      exRaw0, exClean0, monthSeconds, fdivF, fillnaWithZero, replaceInfWithZero,
      pickupHourOf, dayNameOf])

/-- Witness for Claim C8 at a concrete lookup and cleaned row. -/
theorem enrich_left_join_witness :
    (zonesABC.map Zone.LocationID).Nodup ∧
    ((enrichDashboard zonesABC [exClean0]).length = [exClean0].length ∧
      ∀ e ∈ enrichDashboard zonesABC [exClean0],
        (∀ z ∈ zonesABC, z.LocationID ≠ e.base.PULocationID) →
        e.pickup_borough = none ∧ e.pickup_zone = none) :=
  ⟨by decide, enrich_left_join zonesABC [exClean0] (by decide)⟩

/-- Claim C9 counterexample: `pickup_date` is among the five derived
fields the spec says the clean cache artifact persists, but it is not
among the derived columns present when `pages/1_Dashboard.py` writes
the artifact (that page assigns `pickup_date` only after the cache
branch). -/
theorem persisted_fields_counterexample :
    "pickup_date" ∈ specDerivedFields ∧ "pickup_date" ∉ dashboardPersistedDerived := by
  decide

/-- Claim C9 (amended): the artifact written by `app.py` persists
all five derived fields; the artifact written by
`pages/1_Dashboard.py` persists only the other four — `pickup_date`
is recomputed after load rather than persisted there. -/
theorem persisted_fields_amended :
    (∀ c ∈ specDerivedFields, c ∈ overviewPersistedDerived) ∧
    (∀ c ∈ dashboardPersistedDerived, c ∈ specDerivedFields) ∧
    "pickup_date" ∉ dashboardPersistedDerived := by
  decide

end Taxi
